import Mathlib

/-!
# Verification of the quarantine / anti-spam subsystem

Shallow embedding of `am_bot/cogs/quarantine.py`.

Modelling conventions:
* message text is `List Char`; Python `str.lower()` is mapped char-wise
  with `Char.toLower`, `str.strip()` drops whitespace at both ends;
* timestamps are `Int` (seconds); `datetime` arithmetic becomes `Int`
  arithmetic;
* the similarity score produced by `difflib.SequenceMatcher(None, a, b).ratio()`
  is modelled exactly (b2j table with autojunk, longest-match search with
  both extension passes, recursive matching-block decomposition) over `ℚ`
  instead of IEEE floats;
* the per-user history `dict[int, list[MessageRecord]]` becomes
  `Nat → Option (List MessageRecord)` where `none` means the key is absent;
* the external moderation API (discord) is represented by explicit outcome
  parameters: a channel carries its permission bits and the outcome of the
  purge call, role assignment carries the configured id, whether the guild
  has the role, and whether `add_roles` succeeds.
-/

namespace AmBot

/-- Spam-detection configuration (module-level constants read from the
environment in the source; quantified over here). -/
structure SpamConfig where
  similarity_threshold : ℚ
  channel_threshold : Nat
  min_message_length : Nat
deriving DecidableEq

/-- The source defaults: `SPAM_SIMILARITY_THRESHOLD = 0.85`,
`SPAM_CHANNEL_THRESHOLD = 3`, `SPAM_MIN_MESSAGE_LENGTH = 20`. -/
def defaultConfig : SpamConfig :=
  { similarity_threshold := 85 / 100
    channel_threshold := 3
    min_message_length := 20 }

/-- `_MAX_MESSAGES_PER_USER = 50`. -/
def MAX_MESSAGES_PER_USER : Nat := 50

/-- `_MAX_CONTENT_LENGTH = 200`. -/
def MAX_CONTENT_LENGTH : Nat := 200

/-- `MessageRecord(content, channel_id, timestamp)`: record of a user's
message kept for spam detection; `content` is stored lowercase. -/
structure MessageRecord where
  content : List Char
  channel_id : Nat
  timestamp : Int
deriving DecidableEq

/-- Char-wise model of Python `str.lower()`. -/
def toLowerStr (l : List Char) : List Char := l.map Char.toLower

/-- Model of Python `str.strip()`: drop whitespace from both ends. -/
def stripStr (l : List Char) : List Char :=
  ((l.dropWhile Char.isWhitespace).reverse.dropWhile Char.isWhitespace).reverse

/-! ## difflib.SequenceMatcher(None, a, b).ratio()

Faithful model of the CPython implementation with `isjunk = None` and
`autojunk = True` (the defaults used by `_get_similarity`).  With
`isjunk = None` the junk set `bjunk` is empty, so the junk-extension loops
of `find_longest_match` never fire; the autojunk "popular" filter removes
an element's index list from `b2j` when `len(b) >= 200` and the element
occurs more than `len(b) // 100 + 1` times. -/

/-- Ascending list of the positions at which `c` occurs in `b`
(the index list `b2j[c]` before autojunk filtering). -/
def occIndices (b : List Char) (c : Char) : List Nat :=
  (List.range b.length).filter (fun j => decide (b.get? j = some c))

/-- `b2j` lookup after the autojunk "popular" filter. -/
def b2jGet (b : List Char) (c : Char) : List Nat :=
  let idxs := occIndices b c
  if 200 ≤ b.length ∧ b.length / 100 + 1 < idxs.length then [] else idxs

/-- State threaded through the main loop of `find_longest_match`:
the previous row's `j2len` dictionary (total function, absent key = 0)
and the best match found so far. -/
structure FlmState where
  j2len : Nat → Nat
  besti : Nat
  bestj : Nat
  bestsize : Nat

/-- One iteration `i` of the outer loop of `find_longest_match`: walk the
index list of `a[i]` in `b` restricted to `[blo, bhi)` (the source's
`continue`/`break` pair on an ascending list), building the new `j2len`
row and updating the best match on strict improvement. -/
def flmRow (blo bhi i : Nat) (js : List Nat) (s : FlmState) : FlmState :=
  let js := js.filter (fun j => decide (blo ≤ j ∧ j < bhi))
  let out := js.foldl
    (fun (acc : (Nat → Nat) × Nat × Nat × Nat) j =>
      let k := if j = 0 then 1 else s.j2len (j - 1) + 1
      let nj := fun x => if x = j then k else acc.1 x
      if acc.2.2.2 < k then (nj, i + 1 - k, j + 1 - k, k) else (nj, acc.2))
    (fun _ => 0, s.besti, s.bestj, s.bestsize)
  ⟨out.1, out.2.1, out.2.2.1, out.2.2.2⟩

/-- The first extension loop of `find_longest_match`: grow the best block
backwards while the preceding characters agree (fuel-bounded; `i` strictly
decreases every step, so `fuel = i` always suffices). -/
def extendBack (a b : List Char) (alo blo : Nat) :
    Nat → Nat → Nat → Nat → Nat × Nat × Nat
  | 0, i, j, k => (i, j, k)
  | fuel + 1, i, j, k =>
    if alo < i ∧ blo < j ∧ (a.get? (i - 1)).isSome ∧
        a.get? (i - 1) = b.get? (j - 1) then
      extendBack a b alo blo fuel (i - 1) (j - 1) (k + 1)
    else (i, j, k)

/-- The second extension loop of `find_longest_match`: grow the best block
forwards while the following characters agree (fuel-bounded; `i + k`
strictly increases towards `ahi`, so `fuel = ahi` always suffices). -/
def extendFwd (a b : List Char) (ahi bhi : Nat) :
    Nat → Nat → Nat → Nat → Nat
  | 0, _, _, k => k
  | fuel + 1, i, j, k =>
    if i + k < ahi ∧ j + k < bhi ∧ (a.get? (i + k)).isSome ∧
        a.get? (i + k) = b.get? (j + k) then
      extendFwd a b ahi bhi fuel i j (k + 1)
    else k

/-- `find_longest_match(alo, ahi, blo, bhi)` returning `(besti, bestj,
bestsize)`.  The junk-extension loops are omitted because with
`isjunk = None` the junk set is empty and they never execute. -/
def findLongestMatch (a b : List Char) (alo ahi blo bhi : Nat) :
    Nat × Nat × Nat :=
  let s := (List.range' alo (ahi - alo)).foldl
    (fun st i =>
      let js := match a.get? i with
        | some c => b2jGet b c
        | none => []
      flmRow blo bhi i js st)
    ⟨fun _ => 0, alo, blo, 0⟩
  let back := extendBack a b alo blo s.besti s.besti s.bestj s.bestsize
  let size := extendFwd a b ahi bhi ahi back.1 back.2.1 back.2.2
  (back.1, back.2.1, size)

/-- Total size of the matching blocks of `get_matching_blocks`: the
recursive decomposition around each longest match.  Each recursive call
strictly shrinks `(ahi - alo) + (bhi - blo)`, so the initial fuel
`len a + len b + 1` always suffices. -/
def matchingSum (a b : List Char) : Nat → Nat → Nat → Nat → Nat → Nat
  | 0, _, _, _, _ => 0
  | fuel + 1, alo, ahi, blo, bhi =>
    let m := findLongestMatch a b alo ahi blo bhi
    let i := m.1
    let j := m.2.1
    let k := m.2.2
    if k = 0 then 0
    else
      k + (if alo < i ∧ blo < j then matchingSum a b fuel alo i blo j else 0)
        + (if i + k < ahi ∧ j + k < bhi then
            matchingSum a b fuel (i + k) ahi (j + k) bhi
          else 0)

/-- `_get_similarity(text1, text2)`:
`SequenceMatcher(None, text1, text2).ratio()`, i.e. `2 * M / T` where `M`
is the total matched size and `T` the combined length (`1` when both
strings are empty, as in `difflib._calculate_ratio`). -/
def get_similarity (text1 text2 : List Char) : ℚ :=
  let total := text1.length + text2.length
  if total = 0 then 1
  else
    2 * (matchingSum text1 text2 (total + 1) 0 text1.length 0 text2.length : ℚ)
      / (total : ℚ)

/-! ## `_detect_cross_channel_spam` -/

/-- The length pre-filter value: `len(content_lower) / len(record.content)
if record.content else 0`. -/
def lenRatio (content_lower rec_content : List Char) : ℚ :=
  if rec_content.isEmpty then 0
  else (content_lower.length : ℚ) / (rec_content.length : ℚ)

/-- One iteration of the history loop of `_detect_cross_channel_spam`:
`true` when the record adds its channel to `spam_channels` — the record is
from another channel, survives the quick length check
(`len_ratio < 0.5 or len_ratio > 2.0` skips), and its similarity with the
candidate reaches `SPAM_SIMILARITY_THRESHOLD`. -/
def record_matches (cfg : SpamConfig) (content_lower : List Char)
    (current_channel_id : Nat) (r : MessageRecord) : Bool :=
  if r.channel_id = current_channel_id then false
  else if lenRatio content_lower r.content < 1 / 2 ∨
      2 < lenRatio content_lower r.content then false
  else decide (cfg.similarity_threshold ≤
    get_similarity content_lower r.content)

/-- The `spam_channels` set accumulated by the history loop: the distinct
`channel_id`s of the matching records. -/
def spam_channels (cfg : SpamConfig) (history : List MessageRecord)
    (content_lower : List Char) (current_channel_id : Nat) : Finset Nat :=
  ((history.filter
      (record_matches cfg content_lower current_channel_id)).map
    (fun r => r.channel_id)).toFinset

/-- `_detect_cross_channel_spam(user_id, new_content, current_channel_id)`
with `history = self.message_history.get(user_id, [])` passed explicitly
(the `user_id` argument only feeds that lookup and logging). -/
def detect_cross_channel_spam (cfg : SpamConfig)
    (history : List MessageRecord) (new_content : List Char)
    (current_channel_id : Nat) : Bool :=
  let content := stripStr new_content
  if content.isEmpty then false
  else if content.length < cfg.min_message_length then false
  else if history.isEmpty then false
  else
    let content_lower := toLowerStr content
    let total_channels :=
      (spam_channels cfg history content_lower current_channel_id).card + 1
    decide (cfg.channel_threshold ≤ total_channels)

/-! ## The message-history store -/

/-- `self.message_history : dict[int, list[MessageRecord]]`; `none` means
the user id is not a key of the dictionary. -/
def Store : Type := Nat → Option (List MessageRecord)

/-- The store of a freshly constructed cog: no keys. -/
def emptyStore : Store := fun _ => none

/-- `history_for`: `self.message_history.get(user_id, [])`. -/
def historyOf (st : Store) (user_id : Nat) : List MessageRecord :=
  (st user_id).getD []

/-- `del self.message_history[user_id]` guarded by membership (idempotent
removal, as in `_handle_quarantine` and `quarantine_command`). -/
def clearUser (st : Store) (user_id : Nat) : Store :=
  fun u => if u = user_id then none else st u

/-- `_record_message`: lowercase and truncate the content, append the
record to the author's list (a `defaultdict`, so an absent key reads as
`[]`), then trim to the last `_MAX_MESSAGES_PER_USER` entries when the
cap is exceeded. -/
def record_message (st : Store) (author_id : Nat) (content : List Char)
    (channel_id : Nat) (now : Int) : Store :=
  let stored := toLowerStr (content.take MAX_CONTENT_LENGTH)
  let user_history := historyOf st author_id ++
    [⟨stored, channel_id, now⟩]
  let user_history :=
    if MAX_MESSAGES_PER_USER < user_history.length then
      user_history.drop (user_history.length - MAX_MESSAGES_PER_USER)
    else user_history
  fun u => if u = author_id then some user_history else st u

/-- `_cleanup_old_messages` with the ambient clock and the
`MESSAGE_HISTORY_SECONDS` constant passed explicitly: per user, keep the
records with `msg.timestamp > cutoff` where
`cutoff = now - retention_seconds`, and drop users left with an empty
list. -/
def cleanup_old_messages (st : Store) (now retention_seconds : Int) :
    Store :=
  let cutoff := now - retention_seconds
  fun u =>
    match st u with
    | none => none
    | some messages =>
      let kept := messages.filter (fun m => decide (cutoff < m.timestamp))
      if kept.isEmpty then none else some kept

/-! ## Spec-side formulations of the cross-channel rule -/

/-- The cross-channel rule exactly as the specification sentence words it:
a channel other than the candidate's counts as matched when some history
record from it reaches similarity `≥` the threshold with the lowercased
candidate; spam iff distinct matched channels `+ 1 ≥` the channel
threshold.  (No emptiness/minimum-length short-circuits and no length
pre-filter.) -/
def spec_spam_formula (cfg : SpamConfig) (history : List MessageRecord)
    (candidate : List Char) (candidate_channel_id : Nat) : Bool :=
  let matched := ((history.filter (fun r =>
      decide (r.channel_id ≠ candidate_channel_id) &&
      decide (cfg.similarity_threshold ≤
        get_similarity (toLowerStr candidate) r.content))).map
    (fun r => r.channel_id)).toFinset
  decide (cfg.channel_threshold ≤ matched.card + 1)

/-- The distinct channels, other than the candidate's, holding at least
one record that passes the `[0.5, 2.0]` length gate and reaches the
similarity threshold against the (stripped, lowercased) candidate —
phrased per channel, with an existential over the history. -/
def matched_channels (cfg : SpamConfig) (history : List MessageRecord)
    (content_lower : List Char) (current_channel_id : Nat) : Finset Nat :=
  ((history.map (fun r => r.channel_id)).toFinset).filter
    (fun c => c ≠ current_channel_id ∧ ∃ r ∈ history,
      r.channel_id = c ∧
      ¬(lenRatio content_lower r.content < 1 / 2 ∨
        2 < lenRatio content_lower r.content) ∧
      cfg.similarity_threshold ≤ get_similarity content_lower r.content)

/-! ## Quarantine enforcement

The moderation API is represented by explicit outcome data: what
`message.delete()`, `guild.get_role` / `member.add_roles`, and each
channel's `purge` would do. -/

/-- Outcome of `message.delete()`; `Forbidden` and `NotFound` are caught
and ignored by `_handle_quarantine`. -/
inductive DeleteOutcome where
  | success
  | forbidden
  | notFound
deriving DecidableEq

/-- Outcome of `channel.purge(...)`: a deleted-message count, or one of
the two caught exception classes. -/
inductive PurgeOutcome where
  | ok (deleted : Nat)
  | forbidden
  | httpError
deriving DecidableEq

/-- A guild channel as `_purge_channel` observes it: the bot's permission
bits there and what the `purge` call would return. -/
structure ChannelState where
  read_messages : Bool
  manage_messages : Bool
  purge_outcome : PurgeOutcome
deriving DecidableEq

/-- `_purge_channel(channel, member, after)`: skip (0) without the
read+manage permissions; otherwise the purge's count, with `Forbidden`
and `HTTPException` caught as 0. -/
def purge_channel (channel : ChannelState) : Nat :=
  if ¬(channel.read_messages = true ∧ channel.manage_messages = true) then 0
  else
    match channel.purge_outcome with
    | .ok deleted => deleted
    | .forbidden => 0
    | .httpError => 0

/-- `_purge_member_messages(member, guild)`: accumulate
`_purge_channel` over `guild.text_channels`, then over
`guild.voice_channels`. -/
def purge_member_messages (text_channels voice_channels :
    List ChannelState) : Nat :=
  let deleted_count := text_channels.foldl
    (fun acc c => acc + purge_channel c) 0
  voice_channels.foldl (fun acc c => acc + purge_channel c) deleted_count

/-- Environment for `_assign_quarantine_role`: the configured
`QUARANTINE_ROLE_ID`, whether `guild.get_role` finds it, and whether
`member.add_roles` succeeds (else `Forbidden`). -/
structure RoleEnv where
  quarantine_role_id : Nat
  role_found : Bool
  add_roles_ok : Bool
deriving DecidableEq

/-- `_assign_quarantine_role(member, guild, reason) -> bool`: `False`
when the role id is unconfigured (0), when the guild lacks the role, or
when `add_roles` raises `Forbidden`; `True` only on confirmed
assignment. -/
def assign_quarantine_role (env : RoleEnv) : Bool :=
  if env.quarantine_role_id = 0 then false
  else if env.role_found = false then false
  else env.add_roles_ok

/-- Observable moderation actions, in the order `_handle_quarantine`
performs them. -/
inductive Action where
  | deleteMessage (outcome : DeleteOutcome)
  | assignRole (success : Bool)
  | purge (deleted_count : Nat)
deriving DecidableEq

/-- `_handle_quarantine(message, reason)`: delete the triggering message
(ignoring `Forbidden`/`NotFound`), then assign the quarantine role; on
failure return with the store untouched, otherwise purge the member's
recent messages and delete the author's history key.  Returns the action
trace together with the store after the call.  The `reason` string only
feeds logging and the moderation API's audit log. -/
def handle_quarantine (st : Store) (author_id : Nat) (reason : String)
    (delete_outcome : DeleteOutcome) (role_env : RoleEnv)
    (text_channels voice_channels : List ChannelState) :
    List Action × Store :=
  let _ := reason
  let role_ok := assign_quarantine_role role_env
  if role_ok then
    let deleted_count := purge_member_messages text_channels voice_channels
    ([.deleteMessage delete_outcome, .assignRole role_ok,
      .purge deleted_count],
      clearUser st author_id)
  else
    ([.deleteMessage delete_outcome, .assignRole role_ok], st)

/-- `_is_staff(member)`: `False` when `STAFF_ROLE_ID` is unconfigured,
else whether any of the member's roles is the staff role. -/
def is_staff (staff_role_id : Nat) (member_roles : List Nat) : Bool :=
  if staff_role_id = 0 then false
  else member_roles.any (fun r => decide (r = staff_role_id))

/-! ## The `on_message` controller -/

/-- The fields of an inbound message that `on_message` consults. -/
structure Message where
  author_id : Nat
  author_bot : Bool
  author_roles : List Nat
  channel_id : Nat
  content : List Char
deriving DecidableEq

/-- What `on_message` did with a message. -/
inductive MsgResult where
  | ignored
  | quarantinedHoneypot
  | quarantinedSpam
  | recorded
deriving DecidableEq

/-- `on_message`: ignore bot authors and DMs (`in_guild = false`); then
the honeypot check (note the nested `if`: an unconfigured honeypot id
falls through to the spam check), then the spam check, and only
otherwise `_record_message`. -/
def on_message (cfg : SpamConfig) (honeypot_channel_id : Nat)
    (delete_outcome : DeleteOutcome) (role_env : RoleEnv)
    (text_channels voice_channels : List ChannelState) (st : Store)
    (m : Message) (in_guild : Bool) (now : Int) : MsgResult × Store :=
  if m.author_bot = true ∨ in_guild = false then (.ignored, st)
  else if m.channel_id = honeypot_channel_id ∧ honeypot_channel_id ≠ 0 then
    (.quarantinedHoneypot,
      (handle_quarantine st m.author_id "Triggered quarantine honeypot"
        delete_outcome role_env text_channels voice_channels).2)
  else if detect_cross_channel_spam cfg (historyOf st m.author_id)
      m.content m.channel_id then
    (.quarantinedSpam,
      (handle_quarantine st m.author_id "Cross-channel spam detected"
        delete_outcome role_env text_channels voice_channels).2)
  else (.recorded, record_message st m.author_id m.content m.channel_id now)

/-! ## Store operations, for the store-wide content invariant -/

/-- The operations that ever mutate `self.message_history`:
`_record_message`, `_cleanup_old_messages`, and the history deletion done
on quarantine. -/
inductive StoreOp where
  | record (author_id : Nat) (content : List Char) (channel_id : Nat)
      (now : Int)
  | cleanup (now retention_seconds : Int)
  | clear (user_id : Nat)

/-- Apply one store operation. -/
def applyOp (st : Store) : StoreOp → Store
  | .record author_id content channel_id now =>
    record_message st author_id content channel_id now
  | .cleanup now retention_seconds =>
    cleanup_old_messages st now retention_seconds
  | .clear user_id => clearUser st user_id

/-- The `MessageRecord` that `_record_message` builds from a call's
`(content, channel_id, now)` arguments. -/
def mkRecord (c : List Char × Nat × Int) : MessageRecord :=
  ⟨toLowerStr (c.1.take MAX_CONTENT_LENGTH), c.2.1, c.2.2⟩

/-- A sequence of `_record_message` calls for one user, starting from the
fresh store. -/
def foldRecord (uid : Nat) (calls : List (List Char × Nat × Int)) :
    Store :=
  calls.foldl (fun s c => record_message s uid c.1 c.2.1 c.2.2) emptyStore

/-- Store-wide content invariant: every stored record's content is within
the length cap. -/
def GoodStore (st : Store) : Prop :=
  ∀ (uid : Nat) (r : MessageRecord), r ∈ historyOf st uid →
    r.content.length ≤ MAX_CONTENT_LENGTH

/-- Concrete data for witnesses: ten `'a'`s (length 10, below the
20-character minimum). -/
def tenAs : List Char := ['a','a','a','a','a','a','a','a','a','a']

/-- Concrete data for witnesses: 20 distinct letters. -/
def cLong : List Char :=
  ['a','b','c','d','e','f','g','h','i','j','k','l','m','n','o','p','q',
   'r','s','t']

/-- Concrete data for witnesses: 5 letters (length ratio 20/5 = 4). -/
def cShort : List Char := ['a','b','c','d','e']

/-- Concrete data for witnesses: 20 `'z'`s (shares no character with
`cLong`). -/
def cOther : List Char :=
  ['z','z','z','z','z','z','z','z','z','z','z','z','z','z','z','z','z',
   'z','z','z']

/-! ## Theorems -/

set_option maxRecDepth 100000

section Theorems

/-- `cleanup_old_messages` keeps exactly the records with
`now - timestamp < retention`; equality makes a record old. -/
theorem cleanup_eval (st : Store) (now W : Int) (u : Nat) :
    (cleanup_old_messages st now W) u =
      if (historyOf st u).filter (fun r => decide (now - r.timestamp < W))
          = [] then none
      else some ((historyOf st u).filter
        (fun r => decide (now - r.timestamp < W))) := by
  unfold cleanup_old_messages historyOf
  cases h : st u with
  | none => simp [h]
  | some messages =>
    have hf : messages.filter (fun m => decide (now - W < m.timestamp)) =
        messages.filter (fun r => decide (now - r.timestamp < W)) :=
      List.filter_congr fun r _ => by
        simp only [decide_eq_decide]; omega
    by_cases hk : messages.filter
        (fun r => decide (now - r.timestamp < W)) = []
    · simp [h, hf, hk]
    · simp [h, hf, hk]

/-- `cleanup_old_messages` keeps exactly the records with
`now - timestamp < retention`, in order. -/
theorem cleanup_keep_iff (st : Store) (now W : Int) (u : Nat) :
    historyOf (cleanup_old_messages st now W) u =
      (historyOf st u).filter (fun r => decide (now - r.timestamp < W)) := by
  unfold historyOf
  rw [cleanup_eval]
  split <;> simp_all [historyOf]

/-- **C4** (as stated) is false: a record of age exactly the retention
window is removed by `_cleanup_old_messages`, not left untouched — the
code keeps `timestamp > cutoff`, so age `= W` is dropped (and the user's
key with it). -/
theorem C4_counterexample :
    (cleanup_old_messages
        (fun u => if u = 1 then some [⟨[], 5, 50⟩] else none) 100 50) 1 =
      none ∧
    ¬((100 : Int) - 50 > 50) := by
  exact ⟨rfl, by omega⟩

/-- **C4** (amended): for every store, time `now`, retention window `W`
and user, pruning keeps exactly the records with age `now - timestamp`
strictly *less than* `W` (so records of age `≥ W`, including exactly `W`,
are removed), in their original order, and a user whose kept list is
empty is absent from the mapping afterwards. -/
theorem C4_amended_cleanup (st : Store) (now W : Int) (u : Nat) :
    historyOf (cleanup_old_messages st now W) u =
      (historyOf st u).filter (fun r => decide (now - r.timestamp < W)) ∧
    ((cleanup_old_messages st now W) u = none ↔
      (historyOf st u).filter (fun r => decide (now - r.timestamp < W))
        = []) := by
  refine ⟨cleanup_keep_iff st now W u, ?_⟩
  rw [cleanup_eval]
  split <;> simp_all

/-- **C3**: `_handle_quarantine` reports the message-deletion attempt
first in every case; when role assignment fails nothing is purged and the
store is untouched; when it succeeds the purge runs (with whatever count
the channels produce, zero included) and the author's history key is
deleted while every other user's entry is untouched. -/
theorem C3_handle_quarantine (st : Store) (author_id : Nat)
    (reason : String) (d : DeleteOutcome) (env : RoleEnv)
    (tcs vcs : List ChannelState) :
    ((handle_quarantine st author_id reason d env tcs vcs).1.head? =
      some (.deleteMessage d)) ∧
    (assign_quarantine_role env = false →
      (∀ n, Action.purge n ∉
        (handle_quarantine st author_id reason d env tcs vcs).1) ∧
      (handle_quarantine st author_id reason d env tcs vcs).2 = st) ∧
    (assign_quarantine_role env = true →
      (Action.purge (purge_member_messages tcs vcs) ∈
        (handle_quarantine st author_id reason d env tcs vcs).1) ∧
      (handle_quarantine st author_id reason d env tcs vcs).2 author_id =
        none ∧
      (∀ u, u ≠ author_id →
        (handle_quarantine st author_id reason d env tcs vcs).2 u = st u)) := by
  unfold handle_quarantine
  cases h : assign_quarantine_role env with
  | false => simp [h]
  | true =>
    simp [h, clearUser]
    exact fun u hu h2 => absurd h2 hu

/-- Witness for C3: with the role configured, found and assignable, and no
channels (purge count 0), the purge action is reported and user 1's
history key is gone. -/
theorem C3_handle_quarantine_witness :
    Action.purge 0 ∈
      (handle_quarantine emptyStore 1 "spam" .success
        ⟨5, true, true⟩ [] []).1 ∧
    (handle_quarantine emptyStore 1 "spam" .success
      ⟨5, true, true⟩ [] []).2 1 = none := by
  have h := C3_handle_quarantine emptyStore 1 "spam" .success
    ⟨5, true, true⟩ [] []
  have h2 := h.2.2 (by decide)
  exact ⟨h2.1, h2.2.1⟩

/-- Folding `acc + purge_channel c` equals the initial value plus the sum
of the per-channel counts. -/
theorem foldl_purge_eq (l : List ChannelState) :
    ∀ n : Nat, l.foldl (fun acc c => acc + purge_channel c) n =
      n + (l.map purge_channel).sum := by
  induction l with
  | nil => simp
  | cons c cs ih => intro n; simp [ih]; omega

/-- **C7**: `_purge_member_messages` returns the sum of the per-channel
deleted counts over all text channels and voice-channel chats, and a
channel without the read or manage permission, or whose purge call raises
`Forbidden` or `HTTPException`, contributes exactly 0 to that sum (so it
cannot affect the other channels' contributions). -/
theorem C7_purge_sum (text_channels voice_channels : List ChannelState) :
    purge_member_messages text_channels voice_channels =
      ((text_channels ++ voice_channels).map purge_channel).sum ∧
    (∀ c : ChannelState,
      (c.read_messages = false ∨ c.manage_messages = false ∨
        c.purge_outcome = .forbidden ∨ c.purge_outcome = .httpError) →
      purge_channel c = 0) := by
  constructor
  · unfold purge_member_messages
    simp [foldl_purge_eq]
  · rintro ⟨r, m, o⟩ h
    rcases h with h | h | h | h <;> simp_all [purge_channel]

/-- Witness for C7: one healthy text channel (3 deletions), one voice
chat without the manage permission and one with a `Forbidden` purge — the
total is 3 and the failing channels each contribute 0. -/
theorem C7_purge_sum_witness :
    purge_member_messages [⟨true, true, .ok 3⟩]
        [⟨true, false, .ok 5⟩, ⟨true, true, .forbidden⟩] = 3 ∧
    purge_channel ⟨true, false, .ok 5⟩ = 0 ∧
    purge_channel ⟨true, true, .forbidden⟩ = 0 := by
  have h := C7_purge_sum [⟨true, true, .ok 3⟩]
    [⟨true, false, .ok 5⟩, ⟨true, true, .forbidden⟩]
  refine ⟨?_, h.2 ⟨true, false, .ok 5⟩ (by simp),
    h.2 ⟨true, true, .forbidden⟩ (by simp)⟩
  rw [h.1]
  rfl

/-- **C9** (as stated) is false: the honeypot path of `on_message` never
consults `_is_staff`, so a member holding the staff role (role 7
configured as `STAFF_ROLE_ID`) who posts in the honeypot channel (42) is
quarantined all the same. -/
theorem C9_counterexample :
    is_staff 7 [7] = true ∧
    (on_message defaultConfig 42 .success ⟨5, true, true⟩ [] []
        emptyStore ⟨1, false, [7], 42, ['h', 'i']⟩ true 0).1 =
      .quarantinedHoneypot := by
  exact ⟨rfl, rfl⟩

/-- **C9** (amended): every non-bot guild message in the configured
honeypot channel (id ≠ 0) triggers quarantine, regardless of the author's
roles — staff-role holders included; the staff check guards only the
manual `/quarantine` command. -/
theorem C9_amended_honeypot (cfg : SpamConfig)
    (honeypot_channel_id : Nat) (d : DeleteOutcome) (env : RoleEnv)
    (tcs vcs : List ChannelState) (st : Store) (m : Message)
    (in_guild : Bool) (now : Int)
    (hb : m.author_bot = false) (hg : in_guild = true)
    (hc : m.channel_id = honeypot_channel_id)
    (h0 : honeypot_channel_id ≠ 0) :
    (on_message cfg honeypot_channel_id d env tcs vcs st m in_guild
      now).1 = .quarantinedHoneypot := by
  unfold on_message
  simp [hb, hg, hc, h0]

/-- Witness for the amended C9: a staff member (staff role 7) posting in
honeypot channel 42 is quarantined. -/
theorem C9_amended_honeypot_witness :
    is_staff 7 [7] = true ∧
    (on_message defaultConfig 42 .forbidden ⟨5, true, false⟩ [] []
        emptyStore ⟨2, false, [7], 42, ['y', 'o']⟩ true 5).1 =
      .quarantinedHoneypot :=
  ⟨rfl, C9_amended_honeypot defaultConfig 42 .forbidden ⟨5, true, false⟩
    [] [] emptyStore ⟨2, false, [7], 42, ['y', 'o']⟩ true 5
    rfl rfl rfl (by decide)⟩

/-- **C6**: for a non-bot guild message, the honeypot condition is
checked first and wins over the spam check; the spam path fires only when
the honeypot condition does not hold; and on either quarantine path the
store is either untouched or has the author's key deleted — the message
is never recorded. -/
theorem C6_controller_order (cfg : SpamConfig)
    (honeypot_channel_id : Nat) (d : DeleteOutcome) (env : RoleEnv)
    (tcs vcs : List ChannelState) (st : Store) (m : Message)
    (in_guild : Bool) (now : Int)
    (hb : m.author_bot = false) (hg : in_guild = true) :
    ((m.channel_id = honeypot_channel_id ∧ honeypot_channel_id ≠ 0) →
      (on_message cfg honeypot_channel_id d env tcs vcs st m in_guild
        now).1 = .quarantinedHoneypot) ∧
    (¬(m.channel_id = honeypot_channel_id ∧ honeypot_channel_id ≠ 0) →
      detect_cross_channel_spam cfg (historyOf st m.author_id) m.content
        m.channel_id = true →
      (on_message cfg honeypot_channel_id d env tcs vcs st m in_guild
        now).1 = .quarantinedSpam) ∧
    (((on_message cfg honeypot_channel_id d env tcs vcs st m in_guild
          now).1 = .quarantinedHoneypot ∨
      (on_message cfg honeypot_channel_id d env tcs vcs st m in_guild
          now).1 = .quarantinedSpam) →
      ((on_message cfg honeypot_channel_id d env tcs vcs st m in_guild
          now).2 = st ∨
       (on_message cfg honeypot_channel_id d env tcs vcs st m in_guild
          now).2 = clearUser st m.author_id)) := by
  refine ⟨?_, ?_, ?_⟩
  · intro hhp
    unfold on_message
    simp [hb, hg, hhp]
  · intro hhp hdet
    unfold on_message
    simp [hb, hg, hhp, hdet]
  · unfold on_message
    by_cases hhp : m.channel_id = honeypot_channel_id ∧
        honeypot_channel_id ≠ 0
    · unfold handle_quarantine
      cases hr : assign_quarantine_role env <;>
        intro _ <;> simp [hb, hg, hhp, hr]
    · by_cases hdet : detect_cross_channel_spam cfg
          (historyOf st m.author_id) m.content m.channel_id = true
      · unfold handle_quarantine
        cases hr : assign_quarantine_role env <;>
          intro _ <;> simp [hb, hg, hhp, hdet, hr]
      · intro hq
        simp [hb, hg, hhp, hdet] at hq

/-- Witness for C6: a non-bot guild message in honeypot channel 42 (with
a history that would also trip the spam check being irrelevant) yields
the honeypot quarantine, and the store afterwards is the original with
the author's key deleted. -/
theorem C6_controller_order_witness :
    (on_message defaultConfig 42 .success ⟨5, true, true⟩ [] []
        emptyStore ⟨1, false, [], 42, ['h', 'i']⟩ true 0).1 =
      .quarantinedHoneypot ∧
    ((on_message defaultConfig 42 .success ⟨5, true, true⟩ [] []
        emptyStore ⟨1, false, [], 42, ['h', 'i']⟩ true 0).2 = emptyStore ∨
     (on_message defaultConfig 42 .success ⟨5, true, true⟩ [] []
        emptyStore ⟨1, false, [], 42, ['h', 'i']⟩ true 0).2 =
      clearUser emptyStore 1) := by
  have h := C6_controller_order defaultConfig 42 .success ⟨5, true, true⟩
    [] [] emptyStore ⟨1, false, [], 42, ['h', 'i']⟩ true 0 rfl rfl
  have h1 := h.1 ⟨rfl, by decide⟩
  exact ⟨h1, h.2.2 (Or.inl h1)⟩

/-- What one `_record_message` call leaves as the author's history:
the old history with the new record appended, trimmed to the last
`_MAX_MESSAGES_PER_USER` when the cap is exceeded. -/
theorem record_message_self (st : Store) (uid : Nat) (c : List Char)
    (ch : Nat) (ts : Int) :
    historyOf (record_message st uid c ch ts) uid =
      if MAX_MESSAGES_PER_USER <
          (historyOf st uid ++ [mkRecord (c, ch, ts)]).length then
        (historyOf st uid ++ [mkRecord (c, ch, ts)]).drop
          ((historyOf st uid ++ [mkRecord (c, ch, ts)]).length
            - MAX_MESSAGES_PER_USER)
      else historyOf st uid ++ [mkRecord (c, ch, ts)] := by
  unfold record_message historyOf mkRecord
  simp

/-- After any sequence of `record` calls, the stored history is the
suffix of the full record list that drops all but the last
`_MAX_MESSAGES_PER_USER` entries. -/
theorem record_fold_eq (uid : Nat) (calls : List (List Char × Nat × Int)) :
    historyOf (foldRecord uid calls) uid =
      (calls.map mkRecord).drop
        ((calls.map mkRecord).length - MAX_MESSAGES_PER_USER) := by
  induction calls using List.reverseRecOn with
  | nil => rfl
  | append_singleton xs x ih =>
    have hstep : foldRecord uid (xs ++ [x]) =
        record_message (foldRecord uid xs) uid x.1 x.2.1 x.2.2 := by
      simp [foldRecord, List.foldl_append]
    have hmk : mkRecord (x.1, x.2.1, x.2.2) = mkRecord x := rfl
    rw [hstep, record_message_self, hmk, ih]
    simp only [List.map_append, List.map_cons, List.map_nil]
    set A := xs.map mkRecord with hA
    set n := A.length with hn
    by_cases hc : MAX_MESSAGES_PER_USER <
        (A.drop (n - MAX_MESSAGES_PER_USER) ++ [mkRecord x]).length
    · rw [if_pos hc]
      have hlen : (A.drop (n - MAX_MESSAGES_PER_USER) ++
          [mkRecord x]).length = n - (n - MAX_MESSAGES_PER_USER) + 1 := by
        simp [hn]
      have h50 : MAX_MESSAGES_PER_USER ≤ n := by
        by_contra hlt
        rw [hlen] at hc
        unfold MAX_MESSAGES_PER_USER at hc hlt
        omega
      have hd1 : (A.drop (n - MAX_MESSAGES_PER_USER) ++
          [mkRecord x]).length - MAX_MESSAGES_PER_USER = 1 := by
        rw [hlen]; unfold MAX_MESSAGES_PER_USER at h50 ⊢; omega
      rw [hd1]
      have hle : (1 : Nat) ≤
          (A.drop (n - MAX_MESSAGES_PER_USER)).length := by
        simp [hn]; unfold MAX_MESSAGES_PER_USER at h50 ⊢; omega
      rw [List.drop_append_of_le_length hle, List.drop_drop]
      have hle2 : (A ++ [mkRecord x]).length - MAX_MESSAGES_PER_USER =
          n - MAX_MESSAGES_PER_USER + 1 := by
        simp [hn]; unfold MAX_MESSAGES_PER_USER at h50 ⊢; omega
      rw [hle2]
      rw [List.drop_append_of_le_length
        (by unfold MAX_MESSAGES_PER_USER at h50 ⊢; omega)]
    · rw [if_neg hc]
      have hsmall : n < MAX_MESSAGES_PER_USER := by
        by_contra hge
        apply hc
        simp [hn]
        unfold MAX_MESSAGES_PER_USER at hge ⊢
        omega
      have h0 : n - MAX_MESSAGES_PER_USER = 0 := by omega
      have h0' : (A ++ [mkRecord x]).length - MAX_MESSAGES_PER_USER =
          0 := by
        simp [hn]; omega
      rw [h0, h0', List.drop_zero, List.drop_zero]

/-- **C2**: after any sequence of `record` calls for one user the stored
history never exceeds 50 records, and once more than 50 calls were made
it is exactly the records of the last 50 calls, in insertion order. -/
theorem C2_record_cap (uid : Nat)
    (calls : List (List Char × Nat × Int)) :
    (historyOf (foldRecord uid calls) uid).length ≤ 50 ∧
    (50 < calls.length →
      historyOf (foldRecord uid calls) uid =
        (calls.map mkRecord).drop (calls.length - 50) ∧
      (historyOf (foldRecord uid calls) uid).length = 50) := by
  have h := record_fold_eq uid calls
  constructor
  · rw [h, List.length_drop, List.length_map]
    unfold MAX_MESSAGES_PER_USER
    omega
  · intro hgt
    constructor
    · rw [h, List.length_map]
      rfl
    · rw [h, List.length_drop, List.length_map]
      unfold MAX_MESSAGES_PER_USER
      omega

/-- Witness for C2: 51 identical calls leave exactly 50 stored records,
namely those of the last 50 calls. -/
theorem C2_record_cap_witness :
    (historyOf (foldRecord 1 (List.replicate 51 (['a'], 1, 0))) 1).length
      = 50 ∧
    historyOf (foldRecord 1 (List.replicate 51 (['a'], 1, 0))) 1 =
      ((List.replicate 51 (['a'], 1, 0)).map mkRecord).drop 1 := by
  have h := (C2_record_cap 1 (List.replicate 51 (['a'], 1, 0))).2
    (by simp)
  exact ⟨h.2, by rw [h.1]; simp⟩

/-- `Char.toLower` is idempotent: lowering an ASCII upper-case letter
lands outside the upper-case range. -/
theorem char_toLower_idem (c : Char) : c.toLower.toLower = c.toLower := by
  have h1 : ∀ n : Nat, 65 ≤ n → n ≤ 90 →
      (Char.ofNat (n + 32)).toNat = n + 32 := by
    intro n h65 h90
    interval_cases n <;> decide
  unfold Char.toLower
  by_cases h : c.toNat ≥ 65 ∧ c.toNat ≤ 90
  · rw [if_pos h, if_neg]
    rw [h1 c.toNat h.1 h.2]
    omega
  · rw [if_neg h, if_neg h]

/-- Lowercasing is idempotent on whole strings. -/
theorem toLowerStr_idem (l : List Char) :
    toLowerStr (toLowerStr l) = toLowerStr l := by
  unfold toLowerStr
  rw [List.map_map]
  exact List.map_congr_left fun c _ => char_toLower_idem c

theorem good_empty : GoodStore emptyStore := by
  intro uid r hr
  simp [historyOf, emptyStore] at hr

theorem good_applyOp (st : Store) (op : StoreOp) (h : GoodStore st) :
    GoodStore (applyOp st op) := by
  cases op with
  | record author_id content channel_id now =>
    intro uid r hr
    unfold applyOp record_message historyOf at hr
    by_cases he : uid = author_id
    · simp [he] at hr
      split at hr
      · have := List.mem_of_mem_drop hr
        rcases List.mem_append.mp this with hm | hm
        · exact h author_id r hm
        · simp at hm
          subst hm
          simp [toLowerStr]
      · rcases List.mem_append.mp hr with hm | hm
        · exact h author_id r hm
        · simp at hm
          subst hm
          simp [toLowerStr]
    · simp [he] at hr
      exact h uid r hr
  | cleanup now retention_seconds =>
    intro uid r hr
    rw [show applyOp st (.cleanup now retention_seconds) =
      cleanup_old_messages st now retention_seconds from rfl,
      cleanup_keep_iff] at hr
    exact h uid r (List.mem_of_mem_filter hr)
  | clear user_id =>
    intro uid r hr
    unfold applyOp clearUser historyOf at hr
    by_cases he : uid = user_id
    · simp [he] at hr
    · simp [he] at hr
      exact h uid r hr

theorem good_fold (ops : List StoreOp) :
    ∀ st : Store, GoodStore st → GoodStore (ops.foldl applyOp st) := by
  induction ops with
  | nil => intro st h; exact h
  | cons op ops ih =>
    intro st h
    exact ih (applyOp st op) (good_applyOp st op h)

/-- The record just stored is the last entry of the author's history
(trimming only drops from the front). -/
theorem record_message_getLast (st : Store) (uid : Nat) (c : List Char)
    (ch : Nat) (ts : Int) :
    (historyOf (record_message st uid c ch ts) uid).getLast? =
      some (mkRecord (c, ch, ts)) := by
  rw [record_message_self]
  split
  · rw [List.drop_append_of_le_length (by simp [MAX_MESSAGES_PER_USER]),
      List.getLast?_concat]
  · exact List.getLast?_concat _

/-- **C5**: the content stored by `record` is the lowercased truncation
of the input — fully lowercased (lowercasing it again changes nothing)
and of length at most 200 — and every record ever present in the store,
under any sequence of store operations from the fresh store, keeps its
content length at most 200. -/
theorem C5_content_invariant :
    (∀ (st : Store) (uid : Nat) (content : List Char)
        (channel_id : Nat) (now : Int),
      (historyOf (record_message st uid content channel_id now)
          uid).getLast? = some (mkRecord (content, channel_id, now)) ∧
      (mkRecord (content, channel_id, now)).content.length ≤ 200 ∧
      toLowerStr (mkRecord (content, channel_id, now)).content =
        (mkRecord (content, channel_id, now)).content) ∧
    (∀ (ops : List StoreOp) (uid : Nat) (r : MessageRecord),
      r ∈ historyOf (ops.foldl applyOp emptyStore) uid →
      r.content.length ≤ 200) := by
  constructor
  · intro st uid content channel_id now
    refine ⟨record_message_getLast st uid content channel_id now, ?_, ?_⟩
    · simp [mkRecord, toLowerStr, MAX_CONTENT_LENGTH]
    · exact toLowerStr_idem _
  · intro ops uid r hr
    exact good_fold ops emptyStore good_empty uid r hr

/-- Witness for C5: recording `['A']` stores `['a']` (lowercased), a
member of the store with content length within the cap. -/
theorem C5_content_invariant_witness :
    (⟨['a'], 2, 0⟩ : MessageRecord) ∈
      historyOf ([StoreOp.record 1 ['A'] 2 0].foldl applyOp emptyStore)
        1 ∧
    (⟨['a'], 2, 0⟩ : MessageRecord).content.length ≤ 200 :=
  ⟨by decide,
    C5_content_invariant.2 [.record 1 ['A'] 2 0] 1 ⟨['a'], 2, 0⟩
      (by decide)⟩

/-- `record_matches` as a proposition: the record is from another
channel, survives the length gate, and reaches the similarity
threshold. -/
theorem record_matches_iff (cfg : SpamConfig) (cl : List Char) (ch : Nat)
    (r : MessageRecord) :
    record_matches cfg cl ch r = true ↔
      (r.channel_id ≠ ch ∧
       ¬(lenRatio cl r.content < 1 / 2 ∨ 2 < lenRatio cl r.content) ∧
       cfg.similarity_threshold ≤ get_similarity cl r.content) := by
  unfold record_matches
  split_ifs with h1 h2
  · simp [h1]
  · constructor
    · intro h
      exact absurd h (by simp)
    · rintro ⟨-, hng, -⟩
      exact absurd h2 hng
  · rw [decide_eq_true_eq]
    constructor
    · intro h
      exact ⟨h1, h2, h⟩
    · exact fun h => h.2.2

/-- The set the history loop accumulates equals the per-channel
formulation: a channel is matched iff some record from it (other than the
candidate's channel) passes the gate and the threshold. -/
theorem spam_channels_eq_matched (cfg : SpamConfig)
    (history : List MessageRecord) (cl : List Char) (ch : Nat) :
    spam_channels cfg history cl ch =
      matched_channels cfg history cl ch := by
  ext c
  simp only [spam_channels, matched_channels, List.mem_toFinset,
    Finset.mem_filter, List.mem_map, List.mem_filter]
  constructor
  · rintro ⟨r, ⟨hr, hm⟩, hc⟩
    rw [record_matches_iff] at hm
    refine ⟨⟨r, hr, hc⟩, ?_, r, hr, hc, hm.2.1, hm.2.2⟩
    rw [← hc]
    exact hm.1
  · rintro ⟨⟨r0, hr0, hc0⟩, hne, r, hr, hc, hgate, hsim⟩
    refine ⟨r, ⟨hr, ?_⟩, hc⟩
    rw [record_matches_iff]
    refine ⟨?_, hgate, hsim⟩
    rw [hc]
    exact hne

/-- A record that does not match contributes nothing to the matched
channel set, wherever it sits in the history. -/
theorem spam_channels_nonmatch (cfg : SpamConfig) (cl : List Char)
    (ch : Nat) (r : MessageRecord) (h1 h2 : List MessageRecord)
    (hm : record_matches cfg cl ch r = false) :
    spam_channels cfg (h1 ++ r :: h2) cl ch =
      spam_channels cfg (h1 ++ h2) cl ch := by
  unfold spam_channels
  simp [List.filter_append, List.filter_cons, hm]

/-- **C1** (as stated) is false: the claimed iff ignores the detector's
short-circuits.  A 10-character candidate (below the default 20-character
minimum) identical to history records in two other channels satisfies the
claimed condition (2 matched channels + 1 ≥ 3) yet the check returns
false. -/
theorem C1_counterexample :
    detect_cross_channel_spam defaultConfig
      [⟨tenAs, 1, 0⟩, ⟨tenAs, 2, 0⟩] tenAs 3 = false ∧
    spec_spam_formula defaultConfig
      [⟨tenAs, 1, 0⟩, ⟨tenAs, 2, 0⟩] tenAs 3 = true := by
  refine ⟨rfl, ?_⟩
  have hsim : defaultConfig.similarity_threshold ≤
      get_similarity (toLowerStr tenAs) tenAs := by
    have hms : matchingSum tenAs tenAs 21 0 10 0 10 = 10 := by decide
    have hlow : toLowerStr tenAs = tenAs := rfl
    rw [hlow]
    unfold get_similarity defaultConfig
    norm_num [hms, show tenAs.length = 10 from rfl]
  unfold spec_spam_formula
  simp [hsim]
  decide

/-- **C1** (amended): the check returns true iff the stripped candidate
is non-empty, at least the minimum length, the history is non-empty, and
the number of distinct channels other than the candidate's holding a
record that passes the `[0.5, 2.0]` length gate and reaches similarity
`≥` the threshold with the stripped lowercased candidate, plus 1 for the
candidate's own channel, reaches the channel threshold; channel
deduplication is as claimed. -/
theorem C1_amended_detect_iff (cfg : SpamConfig)
    (history : List MessageRecord) (cand : List Char) (ch : Nat) :
    detect_cross_channel_spam cfg history cand ch = true ↔
      (stripStr cand ≠ [] ∧
       cfg.min_message_length ≤ (stripStr cand).length ∧
       history ≠ [] ∧
       cfg.channel_threshold ≤
         (matched_channels cfg history (toLowerStr (stripStr cand))
           ch).card + 1) := by
  unfold detect_cross_channel_spam
  rw [← spam_channels_eq_matched]
  by_cases hc1 : (stripStr cand).isEmpty
  · simp [hc1, List.isEmpty_iff.mp hc1]
  · by_cases hc2 : (stripStr cand).length < cfg.min_message_length
    · simp only [if_neg hc1, if_pos hc2]
      constructor
      · intro h
        exact absurd h (by simp)
      · rintro ⟨-, hlen, -⟩
        omega
    · by_cases hc3 : history.isEmpty
      · simp [hc1, hc2, hc3, List.isEmpty_iff.mp hc3]
      · have hne1 : stripStr cand ≠ [] := by
          simpa [List.isEmpty_iff] using hc1
        have hne3 : history ≠ [] := by
          simpa [List.isEmpty_iff] using hc3
        have hlen : cfg.min_message_length ≤ (stripStr cand).length := by
          omega
        simp only [if_neg hc1, if_neg hc2, if_neg hc3, decide_eq_true_eq]
        constructor
        · intro h
          exact ⟨hne1, hlen, hne3, h⟩
        · exact fun h => h.2.2.2

/-- **C8**: a record whose length ratio against the (normalized)
candidate falls outside `[0.5, 2.0]` never matches, contributes no
channel to the matched set, and its presence in the history cannot change
the detector's verdict (whenever the rest of the history is non-empty, so
that the emptiness short-circuit agrees on both sides). -/
theorem C8_length_gate (cfg : SpamConfig) (cand : List Char) (ch : Nat)
    (r : MessageRecord) (h1 h2 : List MessageRecord)
    (hgate : lenRatio (toLowerStr (stripStr cand)) r.content < 1 / 2 ∨
      2 < lenRatio (toLowerStr (stripStr cand)) r.content) :
    record_matches cfg (toLowerStr (stripStr cand)) ch r = false ∧
    spam_channels cfg (h1 ++ r :: h2) (toLowerStr (stripStr cand)) ch =
      spam_channels cfg (h1 ++ h2) (toLowerStr (stripStr cand)) ch ∧
    (h1 ++ h2 ≠ [] →
      detect_cross_channel_spam cfg (h1 ++ r :: h2) cand ch =
        detect_cross_channel_spam cfg (h1 ++ h2) cand ch) := by
  have hrm : record_matches cfg (toLowerStr (stripStr cand)) ch r
      = false := by
    rw [Bool.eq_false_iff]
    intro htrue
    rw [record_matches_iff] at htrue
    exact htrue.2.1 hgate
  refine ⟨hrm, spam_channels_nonmatch _ _ _ _ _ _ hrm, ?_⟩
  intro hne
  unfold detect_cross_channel_spam
  by_cases hc1 : (stripStr cand).isEmpty
  · simp [hc1]
  · by_cases hc2 : (stripStr cand).length < cfg.min_message_length
    · simp [hc1, hc2]
    · have e1 : (h1 ++ r :: h2).isEmpty = false := by simp
      have e2 : (h1 ++ h2).isEmpty = false := by simpa using hne
      simp [hc1, hc2, e1, e2,
        spam_channels_nonmatch cfg (toLowerStr (stripStr cand)) ch r
          h1 h2 hrm]

/-- Witness for C8: a 20-character candidate against a 5-character record
(length ratio 4): the record never matches and spam detection is
unchanged by its presence. -/
theorem C8_length_gate_witness :
    record_matches defaultConfig (toLowerStr (stripStr cLong)) 5
      ⟨cShort, 7, 0⟩ = false ∧
    spam_channels defaultConfig ([] ++ ⟨cShort, 7, 0⟩ :: [⟨cOther, 9, 0⟩])
        (toLowerStr (stripStr cLong)) 5 =
      spam_channels defaultConfig ([] ++ [⟨cOther, 9, 0⟩])
        (toLowerStr (stripStr cLong)) 5 ∧
    (([] : List MessageRecord) ++ [⟨cOther, 9, 0⟩] ≠ [] →
      detect_cross_channel_spam defaultConfig
          ([] ++ ⟨cShort, 7, 0⟩ :: [⟨cOther, 9, 0⟩]) cLong 5 =
        detect_cross_channel_spam defaultConfig
          ([] ++ [⟨cOther, 9, 0⟩]) cLong 5) := by
  apply C8_length_gate
  right
  have hl : toLowerStr (stripStr cLong) = cLong := rfl
  rw [hl]
  show (2 : ℚ) < lenRatio cLong cShort
  unfold lenRatio
  norm_num [show cShort.isEmpty = false from rfl,
    show cLong.length = 20 from rfl, show cShort.length = 5 from rfl]

/-- **C10**: for a history record with empty stored content the length
ratio is taken as 0 (no division is attempted), 0 falls below the 0.5
bound so the record never matches and contributes no channel, and the
check is total — it returns `true` or `false` on every input. -/
theorem C10_empty_record (cfg : SpamConfig) (cl : List Char) (ch : Nat)
    (r : MessageRecord) (h1 h2 : List MessageRecord)
    (hempty : r.content = []) :
    lenRatio cl r.content = 0 ∧
    ((0 : ℚ) < 1 / 2) ∧
    record_matches cfg cl ch r = false ∧
    spam_channels cfg (h1 ++ r :: h2) cl ch =
      spam_channels cfg (h1 ++ h2) cl ch ∧
    (∀ (history : List MessageRecord) (cand : List Char) (cid : Nat),
      detect_cross_channel_spam cfg history cand cid = true ∨
      detect_cross_channel_spam cfg history cand cid = false) := by
  have hlr : lenRatio cl r.content = 0 := by
    simp [lenRatio, hempty]
  have hrm : record_matches cfg cl ch r = false := by
    rw [Bool.eq_false_iff]
    intro htrue
    rw [record_matches_iff] at htrue
    apply htrue.2.1
    left
    rw [hlr]
    norm_num
  refine ⟨hlr, by norm_num, hrm,
    spam_channels_nonmatch _ _ _ _ _ _ hrm, ?_⟩
  intro history cand cid
  cases hd : detect_cross_channel_spam cfg history cand cid
  · exact Or.inr rfl
  · exact Or.inl rfl

/-- Witness for C10: a record with empty content in channel 7 against the
20-character candidate. -/
theorem C10_empty_record_witness :
    lenRatio cLong ((⟨[], 7, 0⟩ : MessageRecord)).content = 0 ∧
    ((0 : ℚ) < 1 / 2) ∧
    record_matches defaultConfig cLong 5 ⟨[], 7, 0⟩ = false ∧
    spam_channels defaultConfig ([] ++ ⟨[], 7, 0⟩ :: []) cLong 5 =
      spam_channels defaultConfig ([] ++ []) cLong 5 ∧
    (∀ (history : List MessageRecord) (cand : List Char) (cid : Nat),
      detect_cross_channel_spam defaultConfig history cand cid = true ∨
      detect_cross_channel_spam defaultConfig history cand cid = false) :=
  C10_empty_record defaultConfig cLong 5 ⟨[], 7, 0⟩ [] [] rfl

end Theorems

end AmBot
